import Mathlib

/-!
Verification development for the chess-analyzer repository
(`src/chess_analyzer.py`).

Python strings are modelled as `List Char` (`PyStr`); Python ints as
`Int`/`Nat`.  Floating point only appears as `cp / 100.0` rendered with
two decimals: since `cp` is an integer the value is an exact two-decimal
quantity, so it is modelled exactly as hundredths (`Nat`) plus an explicit
sign flag (`SDec`), which also captures IEEE signed zero (negating `+0.00`
yields `-0.00`, exactly as CPython prints it).

External collaborators (the `chess` library's board/move objects, FEN
parsing, the engine process, the OpenAI client) are modelled as explicit
function parameters; the repository's own logic is translated literally.
-/

set_option maxRecDepth 4000

abbrev PyStr := List Char

def lit (s : String) : PyStr := s.toList

/-- `str(d)` for a single decimal digit `d < 10`. -/
def digitChar (d : Nat) : Char := Char.ofNat (48 + d)

/-- Numeric value of a decimal digit character, `none` if not a digit. -/
def charDigitVal? (c : Char) : Option Nat :=
  if c.isDigit then some (c.toNat - 48) else none

/-- Big-endian decimal digits of `n` (`fuel`-bounded; `fuel ≥ n` suffices). -/
def natDigitsAux : Nat → Nat → List Char
  | _, 0 => []
  | 0, _ + 1 => []
  | fuel + 1, n + 1 => natDigitsAux fuel ((n + 1) / 10) ++ [digitChar ((n + 1) % 10)]

/-- Python `str(n)` for `n : Nat`. -/
def natToStr (n : Nat) : PyStr :=
  if n = 0 then ['0'] else natDigitsAux n n

/-- Python `str(i)` for `i : Int`. -/
def intToStr (i : Int) : PyStr :=
  if i < 0 then '-' :: natToStr i.natAbs else natToStr i.toNat

/-- Two-digit zero-padded rendering of `m < 100` (the fractional part of
Python's `{:.2f}`). -/
def pad2 (m : Nat) : PyStr :=
  if m < 10 then '0' :: natToStr m else natToStr m

/-- Decimal-digit-string accumulator parser (`none` on a non-digit). -/
def parseNatAux : Nat → List Char → Option Nat
  | acc, [] => some acc
  | acc, c :: cs =>
    match charDigitVal? c with
    | some d => parseNatAux (acc * 10 + d) cs
    | none => none

/-- An exact signed two-decimal quantity: the value is
`(-1)^neg * cents / 100`.  The sign flag is kept separately so that the
IEEE negative zero produced by Python's float negation is representable. -/
structure SDec where
  neg : Bool
  cents : Nat
deriving DecidableEq, Repr

/-- Python `f"{v:+.2f}"`: sign always shown (from the float's sign bit),
two decimals. -/
def renderSDec (d : SDec) : PyStr :=
  (if d.neg then ['-'] else ['+']) ++ natToStr (d.cents / 100) ++ '.' :: pad2 (d.cents % 100)

/-- Float negation: flips the sign bit (also on zero). -/
def negSDec (d : SDec) : SDec := { d with neg := !d.neg }

/-- Parse an unsigned fixed-point decimal `digits '.' d1 d2` to hundredths.
Models Python `float()` on the two-decimal strings produced by
`_format_score`; other `float()`-acceptable spellings (exponents, inf/nan,
whitespace) never occur in this pipeline and are rejected here. -/
def parseFixed2? (s : PyStr) : Option Nat :=
  let ip := s.takeWhile Char.isDigit
  let rest := s.dropWhile Char.isDigit
  match rest with
  | ['.', d1, d2] =>
    if ip.isEmpty then none
    else
      match parseNatAux 0 ip, charDigitVal? d1, charDigitVal? d2 with
      | some u, some a, some b => some (u * 100 + a * 10 + b)
      | _, _, _ => none
  | _ => none

/-- Python `float(s)` on signed two-decimal strings (see `parseFixed2?`). -/
def pyFloat? (s : PyStr) : Option SDec :=
  match s with
  | '-' :: rest => (parseFixed2? rest).map (SDec.mk true)
  | '+' :: rest => (parseFixed2? rest).map (SDec.mk false)
  | rest => (parseFixed2? rest).map (SDec.mk false)

/-- Python `s.replace(pat, repl)` (all non-overlapping occurrences, left to
right), fuel-bounded for structural recursion; `pyReplace` supplies
`s.length` fuel, which is always enough. -/
def pyReplaceAux (pat repl : PyStr) : Nat → PyStr → PyStr
  | _, [] => []
  | 0, s => s
  | fuel + 1, c :: rest =>
    if !pat.isEmpty && pat.isPrefixOf (c :: rest) then
      repl ++ pyReplaceAux pat repl fuel (List.drop (pat.length - 1) rest)
    else c :: pyReplaceAux pat repl fuel rest

/-- Python `s.replace(pat, repl)` for non-empty `pat`. -/
def pyReplace (pat repl s : PyStr) : PyStr :=
  pyReplaceAux pat repl s.length s

/-- Python `"\n".join(lines)`. -/
def joinNL (lines : List PyStr) : PyStr := List.intercalate ['\n'] lines

/-- Python `' '.join(parts)`. -/
def joinSpace (parts : List PyStr) : PyStr := List.intercalate [' '] parts

/-! ### Score model

`chess.engine` score objects (external library): a white-relative score is
either a centipawn integer or a signed mate count (`score.white()` has
already been applied at the single use site, line 250).  Exactly one of
the two is set, matching the library and the spec's data model. -/

inductive Score where
  | cp (c : Int)
  | mate (n : Int)
deriving DecidableEq, Repr

/-- `{pawns:.2f}` where `pawns = c / 100.0` — the sign character of the
float rendering itself (only for negative values). -/
def floatFmt2 (c : Int) : PyStr :=
  (if c < 0 then ['-'] else []) ++ natToStr (c.natAbs / 100) ++ '.' :: pad2 (c.natAbs % 100)

/-- `ChessAnalyzer._format_score` (src/chess_analyzer.py:336-350).
The `cp is None → "N/A"` branch is unreachable for library score objects
(a score with no centipawn value is a mate, handled first); the pipeline's
`"N/A"` arises from `result.get('score', 'N/A')` in `analyze` instead. -/
def format_score : Score → PyStr
  | .mate n =>
    if 0 < n then lit "Mate in " ++ natToStr n.toNat
    else lit "Mated in " ++ natToStr n.natAbs
  | .cp c => (if 0 ≤ c then ['+'] else []) ++ floatFmt2 c

/-- The `score_value` expression at src/chess_analyzer.py:252:
`score.score(mate_score=10000) if score.score() is not None else
(10000 if score.mate() > 0 else -10000)` — `score.score()` is non-`None`
exactly for centipawn scores. -/
def score_value : Score → Int
  | .cp c => c
  | .mate n => if 0 < n then 10000 else -10000

/-- `ChessAnalyzer._format_display_score` (src/chess_analyzer.py:305-334). -/
def format_display_score (raw_score : PyStr) (is_white_turn : Bool) : PyStr :=
  if raw_score = lit "N/A" then raw_score
  else if (lit "Mate in").isPrefixOf raw_score then
    if is_white_turn then raw_score
    else lit "Mated in " ++ pyReplace (lit "Mate in ") [] raw_score
  else if (lit "Mated in").isPrefixOf raw_score then
    if is_white_turn then raw_score
    else lit "Mate in " ++ pyReplace (lit "Mated in ") [] raw_score
  else
    match pyFloat? raw_score with
    | some value => renderSDec (if is_white_turn then value else negSDec value)
    | none => raw_score

/-- The display-value flip at src/chess_analyzer.py:276:
`raw_score_value if is_white_turn else -raw_score_value`. -/
def displayValue (is_white_turn : Bool) (v : Int) : Int :=
  if is_white_turn then v else -v

example : format_score (.cp 125) = lit "+1.25" := by decide
example : format_score (.cp (-50)) = lit "-0.50" := by decide
example : format_score (.cp 0) = lit "+0.00" := by decide
example : format_score (.mate 3) = lit "Mate in 3" := by decide
example : format_score (.mate (-3)) = lit "Mated in 3" := by decide
example : score_value (.mate (-2)) = -10000 := by decide
example : format_display_score (lit "Mate in 3") false = lit "Mated in 3" := by decide
example : format_display_score (lit "Mated in 12") false = lit "Mate in 12" := by decide
example : format_display_score (lit "+1.25") false = lit "-1.25" := by decide
example : format_display_score (lit "-0.50") false = lit "+0.50" := by decide
example : format_display_score (lit "+0.00") false = lit "-0.00" := by decide
example : format_display_score (lit "+1.25") true = lit "+1.25" := by decide
example : format_display_score (lit "N/A") false = lit "N/A" := by decide

/-! ### Multi-Line Aggregator (`ChessAnalyzer.analyze`, src/chess_analyzer.py:236-288)

`Board` and `Move` are the external `chess` library's types; `san` models
`board.san(move)` (`none` when the library raises), `push` models
`board.push(move)` and `uci` models `move.uci()`.  An `EngineInfo` is one
`info` dictionary from the engine's update stream; a `LineAccum` is one of
the per-rank accumulator dictionaries in `analysis_results`. -/

section Aggregator

variable {Board Move : Type}

/-- One engine update dictionary: each key may be absent.  `score` holds
the white-relative value (`info['score'].white()`, line 250). -/
structure EngineInfo (Move : Type) where
  multipv : Option Nat
  score : Option Score
  pv : Option (List Move)
  depth : Option Nat

/-- A per-rank accumulator dictionary from `analysis_results`:
`{}` at creation, keys added by updates. -/
structure LineAccum where
  score : Option PyStr
  score_value : Option Int
  pv : Option (List PyStr)
  pv_san : Option (List PyStr)
  depth : Option Nat
deriving DecidableEq, Repr

def emptyAccum : LineAccum := ⟨none, none, none, none, none⟩

/-- Python truthiness of the accumulator dict (`if result and ...`):
a dict is truthy iff non-empty, i.e. iff any key was ever written. -/
def accumTruthy (r : LineAccum) : Bool :=
  r.score.isSome || r.score_value.isSome || r.pv.isSome || r.pv_san.isSome || r.depth.isSome

/-- `while len(analysis_results) <= pv_index: analysis_results.append({})`
(src/chess_analyzer.py:244-245). -/
def extendTo (acc : List LineAccum) (i : Nat) : List LineAccum :=
  acc ++ List.replicate (i + 1 - acc.length) emptyAccum

/-- `ChessAnalyzer._pv_to_san`'s loop (src/chess_analyzer.py:357-362):
append `temp_board.san(move)` then `temp_board.push(move)`; any exception
breaks the loop (dropping the failing ply and everything after it). -/
def sanWalk (san : Board → Move → Option PyStr) (push : Board → Move → Board) :
    Board → List Move → List PyStr
  | _, [] => []
  | b, m :: ms =>
    match san b m with
    | some s => s :: sanWalk san push (push b m) ms
    | none => []

/-- `ChessAnalyzer._pv_to_san` (src/chess_analyzer.py:352-364): the walk
runs on `temp_board = board.copy()`, so the caller-visible board (second
component) is returned exactly as it was passed in. -/
def pv_to_san (san : Board → Move → Option PyStr) (push : Board → Move → Board)
    (board : Board) (pv : List Move) : List PyStr × Board :=
  let temp_board := board
  (sanWalk san push temp_board pv, board)

/-- The per-field merge into one accumulator (src/chess_analyzer.py:249-259):
each key present in `info` overwrites that key (and only that key). -/
def applyInfo (san : Board → Move → Option PyStr) (push : Board → Move → Board)
    (uci : Move → PyStr) (board : Board) (result : LineAccum) (info : EngineInfo Move) :
    LineAccum :=
  let result :=
    match info.score with
    | some score =>
      { result with score := some (format_score score), score_value := some (score_value score) }
    | none => result
  let result :=
    match info.pv with
    | some pv =>
      { result with pv := some ((pv.take 10).map uci),
                    pv_san := some (pv_to_san san push board (pv.take 10)).1 }
    | none => result
  match info.depth with
  | some d => { result with depth := some d }
  | none => result

/-- One iteration of the `for info in analysis` loop
(src/chess_analyzer.py:239-259): skip unless `'multipv' in info`, extend
the list to cover `pv_index = multipv - 1`, then merge per field.
The engine's `multipv` is 1-based (≥ 1); theorems that touch indexing
carry that as a hypothesis. -/
def processInfo (san : Board → Move → Option PyStr) (push : Board → Move → Board)
    (uci : Move → PyStr) (board : Board) (acc : List LineAccum) (info : EngineInfo Move) :
    List LineAccum :=
  match info.multipv with
  | none => acc
  | some mpv =>
    let pv_index := mpv - 1
    let acc' := extendTo acc pv_index
    acc'.set pv_index (applyInfo san push uci board (acc'.getD pv_index emptyAccum) info)

/-- The whole update-stream loop: `analysis_results` after the `with
engine.analysis(...)` block, starting from the empty list. -/
def runStream (san : Board → Move → Option PyStr) (push : Board → Move → Board)
    (uci : Move → PyStr) (board : Board) (stream : List (EngineInfo Move)) :
    List LineAccum :=
  stream.foldl (processInfo san push uci board) []

/-- One finalized entry appended to `best_moves`
(src/chess_analyzer.py:279-288). -/
structure RankedMove where
  rank : Nat
  move : PyStr
  move_san : PyStr
  score : PyStr
  score_value : Int
  raw_score_value : Int
  line : PyStr
  full_line : List PyStr
deriving DecidableEq, Repr

/-- Builds the dict of src/chess_analyzer.py:267-288 for index `i`,
first pv move `m` and san list `sans`:
`move_san = result['pv_san'][0] if result['pv_san'] else move` falls back
to the engine-notation move when the san list is empty. -/
def mkRankedMove (is_white_turn : Bool) (i : Nat) (m : PyStr) (sans : List PyStr)
    (result : LineAccum) : RankedMove :=
  let move := m
  let move_san := match sans with | s :: _ => s | [] => move
  let raw_score_value := result.score_value.getD 0
  let raw_score := result.score.getD (lit "N/A")
  { rank := i + 1
    move := move
    move_san := move_san
    score := format_display_score raw_score is_white_turn
    score_value := displayValue is_white_turn raw_score_value
    raw_score_value := raw_score_value
    line := joinSpace (sans.take 5)
    full_line := sans }

/-- The `for i, result in enumerate(analysis_results)` finalization loop
(src/chess_analyzer.py:265-288).  An entry is emitted iff
`result and 'pv' in result`; a present-but-empty pv makes `result['pv'][0]`
raise `IndexError` (modelled as `none`), and a missing `pv_san` key would
raise `KeyError` (also `none`; unreachable, the two keys are always written
together). -/
def buildMoves (is_white_turn : Bool) : Nat → List LineAccum → Option (List RankedMove)
  | _, [] => some []
  | i, result :: rest =>
    if accumTruthy result && result.pv.isSome then
      match result.pv with
      | some (m :: _) =>
        match result.pv_san with
        | some sans =>
          (buildMoves is_white_turn (i + 1) rest).map
            (mkRankedMove is_white_turn i m sans result :: ·)
        | none => none
      | some [] => none
      | none => buildMoves is_white_turn (i + 1) rest
    else buildMoves is_white_turn (i + 1) rest

end Aggregator

/-! ### FEN validation and `analyze` (src/chess_analyzer.py:190-303)

`parse` models the external `chess.Board(fen)` constructor
(`.error e` = the `ValueError` it raises on a malformed FEN, the only
exception it raises for a string argument); `isValid` models
`board.is_valid()`. -/

section Analyze

variable {Board Move : Type}

/-- `ChessAnalyzer.validate_fen` (src/chess_analyzer.py:190-204). -/
def validate_fen (parse : PyStr → Except PyStr Board) (isValid : Board → Bool)
    (fen : PyStr) : Bool × PyStr :=
  match parse fen with
  | .ok board =>
    if isValid board then (true, lit "Valid FEN")
    else (false, lit "Invalid board position")
  | .error e => (false, lit "Invalid FEN: " ++ e)

/-- The dictionary returned by `ChessAnalyzer.analyze`
(src/chess_analyzer.py:296-303). -/
structure AnalysisResult (Ctx : Type) where
  fen : PyStr
  turn : PyStr
  position_context : Ctx
  best_moves : List RankedMove
  explanation : PyStr
  analysis_depth : Nat

/-- `ChessAnalyzer.analyze` (src/chess_analyzer.py:206-303), with the
external pieces as parameters: `getEngine` models `self._get_engine()`
(`.error` = its `RuntimeError`), `stream` is the update sequence the
engine emits for this position, `turnOf` is `board.turn`, `getContext` is
`_get_position_context`, `explainFn` is `_generate_explanation`
(LLM-or-template dispatch), and `default_depth`/`max_depth` come from
`OPTIMAL_SETTINGS` (environment-dependent, computed at module load).
A `.error` result models `analyze` raising. -/
def analyze {Ctx : Type} (parse : PyStr → Except PyStr Board) (isValid : Board → Bool)
    (san : Board → Move → Option PyStr) (push : Board → Move → Board) (uci : Move → PyStr)
    (turnOf : Board → Bool) (getContext : Board → Ctx)
    (explainFn : Board → List RankedMove → Ctx → PyStr → PyStr)
    (default_depth max_depth : Nat) (getEngine : Except PyStr Unit)
    (stream : List (EngineInfo Move)) (fen : PyStr) (depth? : Option Nat)
    (lang : PyStr) : Except PyStr (AnalysisResult Ctx) :=
  let v := validate_fen parse isValid fen
  if v.1 then
    let depth := match depth? with | none => default_depth | some d => min d max_depth
    match parse fen with
    | .error e => .error e
    | .ok board =>
      match getEngine with
      | .error e => .error e
      | .ok _ =>
        let analysis_results := runStream san push uci board stream
        let is_white_turn := turnOf board
        match buildMoves is_white_turn 0 analysis_results with
        | none => .error (lit "IndexError")
        | some best_moves =>
          let position_context := getContext board
          let explanation := explainFn board best_moves position_context lang
          .ok { fen := fen
                turn := if turnOf board then lit "white" else lit "black"
                position_context := position_context
                best_moves := best_moves
                explanation := explanation
                analysis_depth := depth }
  else .error v.2

end Analyze

/-! ### Position context and the template Explanation Renderer
(`ChessAnalyzer._generate_template_explanation`, src/chess_analyzer.py:517-709)

`PositionContext` mirrors the dictionary built by `_get_position_context`
(the per-piece-type counts inside `material_balance` are not consulted by
the renderer and are omitted).  The two inline locale string tables become
one structure built by `txtTable`. -/

structure MaterialBalance where
  white : Int
  black : Int
  balance : Int
deriving DecidableEq, Repr

structure PositionContext where
  is_check : Bool
  is_checkmate : Bool
  is_stalemate : Bool
  can_castle_kingside_white : Bool
  can_castle_queenside_white : Bool
  can_castle_kingside_black : Bool
  can_castle_queenside_black : Bool
  material_balance : MaterialBalance
  move_number : Nat
  legal_moves_count : Nat
  phase : PyStr
deriving DecidableEq, Repr

/-- `ChessAnalyzer._translate_phase` (src/chess_analyzer.py:704-709). -/
def translatePhase (phase lang : PyStr) : PyStr :=
  if lang = lit "pt" then
    if phase = lit "opening" then lit "abertura"
    else if phase = lit "middlegame" then lit "meio-jogo"
    else if phase = lit "endgame" then lit "final"
    else phase
  else phase

/-- The `txt` dictionary of `_generate_template_explanation`
(src/chess_analyzer.py:529-602). -/
structure TxtTable where
  position_assessment : PyStr
  turn_to_move : PyStr
  material_advantage : PyStr → Int → PyStr
  material_equal : PyStr
  in_check : PyStr
  checkmate : PyStr
  stalemate : PyStr
  analysis_title : PyStr
  best_move : PyStr
  second_best : PyStr
  third_best : PyStr
  forced_mate : PyStr
  getting_mated : PyStr
  decisive_advantage : PyStr
  clear_advantage : PyStr
  slight_edge : PyStr
  losing : PyStr
  worse : PyStr
  opponent_edge : PyStr
  equal : PyStr
  why_sequence : PyStr
  after_move : PyStr
  expected_response : PyStr
  game_continues : PyStr
  followed_by : PyStr
  further_moves : PyStr
  strategic_title : PyStr
  opening_advice : PyStr
  middlegame_advice : PyStr
  endgame_advice : PyStr
  can_castle : PyStr
  api_tip : PyStr

def txtTable (lang : PyStr) (boardTurn : Bool) (phase : PyStr) : TxtTable :=
  if lang = lit "pt" then
    let turn := if boardTurn then lit "Brancas" else lit "Pretas"
    let opponent := if boardTurn then lit "Pretas" else lit "Brancas"
    { position_assessment := lit "**Avaliação da Posição**"
      turn_to_move := lit "É a vez das " ++ turn ++ lit " jogarem. O jogo está na fase de "
        ++ translatePhase phase lang ++ lit "."
      material_advantage := fun side n =>
        side ++ lit " têm vantagem material de " ++ intToStr n ++ lit " peão(s)."
      material_equal := lit "O material está igual."
      in_check := lit "⚠️ **" ++ turn
        ++ lit " estão em xeque!** A prioridade imediata é escapar do xeque."
      checkmate := lit "♔ **Xeque-mate!** "
        ++ (if boardTurn then lit "Pretas" else lit "Brancas") ++ lit " vencem!"
      stalemate := lit "**Afogamento** - O jogo é empate."
      analysis_title := lit "**Análise dos Lances Principais**"
      best_move := lit "Melhor lance"
      second_best := lit "Segundo melhor"
      third_best := lit "Terceiro melhor"
      forced_mate := lit "Este lance leva a um **xeque-mate forçado**!"
      getting_mated := lit "⚠️ Apesar de ser a melhor opção, " ++ turn
        ++ lit " serão xeque-mateadas. A posição está perdida."
      decisive_advantage := turn
        ++ lit " obtêm uma **vantagem decisiva** com este lance. A posição fica ganha."
      clear_advantage := lit "Este lance dá a " ++ turn
        ++ lit " uma **vantagem clara**. A posição é favorável."
      slight_edge := turn ++ lit " mantêm uma **ligeira vantagem** com este lance."
      losing := lit "⚠️ Mesmo com o melhor jogo, " ++ turn
        ++ lit " estão em **posição perdida**."
      worse := lit "⚠️ " ++ turn
        ++ lit " estão **piores** aqui, mas este lance limita os danos."
      opponent_edge := opponent
        ++ lit " têm ligeira vantagem, mas a posição continua jogável."
      equal := lit "A posição é **aproximadamente igual** após este lance."
      why_sequence := lit "**Por que esta sequência?**"
      after_move := lit "Após"
      expected_response := lit "a resposta esperada é"
      game_continues := lit "O jogo provavelmente continuaria:"
      followed_by := lit "seguido de"
      further_moves := lit "Lances seguintes nesta linha:"
      strategic_title := lit "**Considerações Estratégicas**"
      opening_advice := lit "• Na abertura, foque no desenvolvimento das peças, controle do centro e segurança do rei."
      middlegame_advice := lit "• No meio-jogo, busque oportunidades táticas e melhore a coordenação das peças."
      endgame_advice := lit "• No final, a atividade do rei e a promoção de peões são fatores críticos."
      can_castle := lit "ainda podem rocar"
      api_tip := lit "*Para insights estratégicos mais detalhados com explicações de motivos táticos, adicione sua chave de API do OpenAI.*" }
  else
    let turn := if boardTurn then lit "White" else lit "Black"
    let opponent := if boardTurn then lit "Black" else lit "White"
    { position_assessment := lit "**Position Assessment**"
      turn_to_move := lit "It\x27s " ++ turn
        ++ lit "\x27s turn to move. The game is in the " ++ phase ++ lit "."
      material_advantage := fun side n =>
        side ++ lit " has a material advantage of " ++ intToStr n
          ++ lit " pawn(s) worth of material."
      material_equal := lit "Material is equal."
      in_check := lit "⚠️ **" ++ turn
        ++ lit " is in check!** The immediate priority is to escape the check."
      checkmate := lit "♔ **Checkmate!** "
        ++ (if boardTurn then lit "Black" else lit "White") ++ lit " wins!"
      stalemate := lit "**Stalemate** - The game is a draw."
      analysis_title := lit "**Analysis of Key Moves**"
      best_move := lit "Best move"
      second_best := lit "Second best"
      third_best := lit "Third best"
      forced_mate := lit "This move leads to a **forced checkmate**!"
      getting_mated := lit "⚠️ Despite being the best option, " ++ turn
        ++ lit " is getting checkmated. The position is lost."
      decisive_advantage := turn
        ++ lit " gains a **decisive advantage** with this move. The position becomes winning."
      clear_advantage := lit "This move gives " ++ turn
        ++ lit " a **clear advantage**. The position is favorable."
      slight_edge := turn ++ lit " maintains a **slight edge** with this move."
      losing := lit "⚠️ Even with the best play, " ++ turn
        ++ lit " is in a **losing position**."
      worse := lit "⚠️ " ++ turn
        ++ lit " is **worse** here, but this move limits the damage."
      opponent_edge := opponent
        ++ lit " has a slight edge, but the position remains playable."
      equal := lit "The position is **roughly equal** after this move."
      why_sequence := lit "**Why this sequence?**"
      after_move := lit "After"
      expected_response := lit "the expected response is"
      game_continues := lit "The game would likely continue:"
      followed_by := lit "followed by"
      further_moves := lit "Further moves in this line:"
      strategic_title := lit "**Strategic Considerations**"
      opening_advice := lit "• In the opening, focus on piece development, controlling the center, and king safety."
      middlegame_advice := lit "• In the middlegame, look for tactical opportunities and improve piece coordination."
      endgame_advice := lit "• In the endgame, king activity and pawn promotion become critical factors."
      can_castle := lit "can still castle"
      api_tip := lit "*For more detailed strategic insights with explanations of tactical motifs, add your OpenAI API key.*" }

/-- The lines appended for one entry of `best_moves[:3]`
(src/chess_analyzer.py:635-673).  A rank of 0 would hit Python's negative
list index `-1` and select the last label (`third_best`). -/
def moveBlock (txt : TxtTable) (lang : PyStr) (move : RankedMove) : List PyStr :=
  let rank_label :=
    if move.rank ≤ 3 then
      match move.rank with
      | 1 => txt.best_move
      | 2 => txt.second_best
      | 3 => txt.third_best
      | _ => txt.third_best
    else '#' :: natToStr move.rank
  let eval_label := if lang = lit "en" then lit "Evaluation" else lit "Avaliação"
  let header := '\n' :: (lit "**" ++ rank_label ++ lit ": `" ++ move.move_san
    ++ lit "`** (" ++ eval_label ++ lit ": " ++ move.score ++ lit ")")
  let band :=
    if (lit "Mate in").isPrefixOf move.score then txt.forced_mate
    else if (lit "Mated in").isPrefixOf move.score then txt.getting_mated
    else if move.score_value > 300 then txt.decisive_advantage
    else if move.score_value > 100 then txt.clear_advantage
    else if move.score_value > 30 then txt.slight_edge
    else if move.score_value < -300 then txt.losing
    else if move.score_value < -100 then txt.worse
    else if move.score_value < -30 then txt.opponent_edge
    else txt.equal
  let full_line := move.full_line
  let cont :=
    if 2 ≤ full_line.length then
      ['\n' :: txt.why_sequence,
       txt.after_move ++ lit " `" ++ full_line.getD 0 [] ++ lit "`, "
         ++ txt.expected_response ++ lit " `" ++ full_line.getD 1 [] ++ lit "`."]
      ++ (if 4 ≤ full_line.length then
            [txt.game_continues ++ lit " `" ++ full_line.getD 2 [] ++ lit "` "
              ++ txt.followed_by ++ lit " `" ++ full_line.getD 3 [] ++ lit "`."]
          else [])
      ++ (if 5 ≤ full_line.length then
            [txt.further_moves ++ lit " "
              ++ List.intercalate (lit ", ")
                   (((full_line.drop 4).take 3).map (fun s => '`' :: s ++ ['`']))]
          else [])
    else []
  [header, band] ++ cont

/-- `ChessAnalyzer._generate_template_explanation`
(src/chess_analyzer.py:517-702): builds the `lines` list and joins with
newlines; checkmate and stalemate return early. -/
def generate_template_explanation (boardTurn : Bool) (best_moves : List RankedMove)
    (context : PositionContext) (lang : PyStr) : PyStr :=
  let txt := txtTable lang boardTurn context.phase
  let lines := [txt.position_assessment, txt.turn_to_move]
  let material := context.material_balance
  let lines := lines ++
    (if material.balance > 0 then
      [txt.material_advantage (if lang = lit "en" then lit "White" else lit "Brancas")
        material.balance]
     else if material.balance < 0 then
      [txt.material_advantage (if lang = lit "en" then lit "Black" else lit "Pretas")
        |material.balance|]
     else [txt.material_equal])
  let lines := lines ++ (if context.is_check then [txt.in_check] else [])
  if context.is_checkmate then joinNL (lines ++ [txt.checkmate])
  else if context.is_stalemate then joinNL (lines ++ [txt.stalemate])
  else
    let lines := lines ++ [[]]
    let lines := lines ++
      (if best_moves.isEmpty then [] else
        txt.analysis_title :: ((best_moves.take 3).map (moveBlock txt lang)).flatten)
    let lines := lines ++ [[]]
    let lines := lines ++ [txt.strategic_title]
    let lines := lines ++
      (if context.phase = lit "opening" then [txt.opening_advice]
       else if context.phase = lit "middlegame" then [txt.middlegame_advice]
       else [txt.endgame_advice])
    let lines := lines ++
      (if context.phase = lit "opening" ∨ context.phase = lit "middlegame" then
        let white_label := if lang = lit "en" then lit "White" else lit "Brancas"
        let black_label := if lang = lit "en" then lit "Black" else lit "Pretas"
        let castle_info :=
          (if context.can_castle_kingside_white || context.can_castle_queenside_white then
            [white_label ++ ' ' :: txt.can_castle] else []) ++
          (if context.can_castle_kingside_black || context.can_castle_queenside_black then
            [black_label ++ ' ' :: txt.can_castle] else [])
        if castle_info.isEmpty then []
        else
          let and_word := if lang = lit "en" then lit " and " else lit " e "
          [lit "• " ++ List.intercalate and_word castle_info ++ ['.']]
       else [])
    let lines := lines ++ [[]]
    let lines := lines ++ [txt.api_tip]
    joinNL lines

/-! ### Lemmas about digit strings and the formatters -/

lemma charDigitVal?_digitChar {d : Nat} (h : d < 10) :
    charDigitVal? (digitChar d) = some d := by
  interval_cases d <;> decide

lemma digitChar_isDigit {d : Nat} (h : d < 10) : (digitChar d).isDigit = true := by
  interval_cases d <;> decide

lemma natDigitsAux_digits : ∀ fuel n, ∀ c ∈ natDigitsAux fuel n, c.isDigit = true := by
  intro fuel
  induction fuel with
  | zero => intro n c hc; cases n <;> simp [natDigitsAux] at hc
  | succ f ih =>
    intro n c hc
    cases n with
    | zero => simp [natDigitsAux] at hc
    | succ m =>
      simp only [natDigitsAux, List.mem_append, List.mem_singleton] at hc
      rcases hc with hc | hc
      · exact ih _ c hc
      · subst hc; exact digitChar_isDigit (Nat.mod_lt _ (by omega))

lemma natToStr_digits (n : Nat) : ∀ c ∈ natToStr n, c.isDigit = true := by
  intro c hc
  unfold natToStr at hc
  split at hc
  · simp at hc; subst hc; decide
  · exact natDigitsAux_digits _ _ c hc

lemma parseNatAux_append (xs : List Char) :
    ∀ (acc : Nat) (ys : List Char),
      parseNatAux acc (xs ++ ys) =
        (parseNatAux acc xs).bind fun a => parseNatAux a ys := by
  induction xs with
  | nil => intro acc ys; simp [parseNatAux]
  | cons c cs ih =>
    intro acc ys
    simp only [List.cons_append, parseNatAux]
    cases h : charDigitVal? c with
    | some d => simp [ih]
    | none => simp

lemma parseNatAux_natDigitsAux :
    ∀ fuel n acc, n ≤ fuel →
      ∃ k, parseNatAux acc (natDigitsAux fuel n) = some (acc * 10 ^ k + n) := by
  intro fuel
  induction fuel with
  | zero =>
    intro n acc h
    have : n = 0 := by omega
    subst this
    exact ⟨0, by simp [natDigitsAux, parseNatAux]⟩
  | succ f ih =>
    intro n acc h
    cases n with
    | zero => exact ⟨0, by simp [natDigitsAux, parseNatAux]⟩
    | succ m =>
      have hdiv : (m + 1) / 10 ≤ f := by
        have := Nat.div_lt_self (Nat.succ_pos m) (by omega : 1 < 10)
        omega
      obtain ⟨k, hk⟩ := ih ((m + 1) / 10) acc hdiv
      refine ⟨k + 1, ?_⟩
      rw [natDigitsAux, parseNatAux_append, hk]
      simp only [Option.some_bind, parseNatAux,
        charDigitVal?_digitChar (Nat.mod_lt _ (by omega : (0:Nat) < 10))]
      congr 1
      rw [pow_succ]
      have h2 : (m + 1) / 10 * 10 + (m + 1) % 10 = m + 1 := by omega
      calc (acc * 10 ^ k + (m + 1) / 10) * 10 + (m + 1) % 10
          = acc * (10 ^ k * 10) + ((m + 1) / 10 * 10 + (m + 1) % 10) := by ring
        _ = acc * (10 ^ k * 10) + (m + 1) := by rw [h2]

lemma parseNatAux_natToStr (n : Nat) : parseNatAux 0 (natToStr n) = some n := by
  unfold natToStr
  split
  · subst ‹n = 0›; decide
  · obtain ⟨k, hk⟩ := parseNatAux_natDigitsAux n n 0 le_rfl
    simpa using hk

lemma natToStr_ne_nil (n : Nat) : natToStr n ≠ [] := by
  unfold natToStr
  split
  · simp
  · rename_i h
    cases n with
    | zero => exact absurd rfl h
    | succ m => simp [natDigitsAux]

lemma takeWhile_digits_append (xs zs : List Char) (h : ∀ c ∈ xs, c.isDigit = true) :
    (xs ++ '.' :: zs).takeWhile Char.isDigit = xs ∧
    (xs ++ '.' :: zs).dropWhile Char.isDigit = '.' :: zs := by
  induction xs with
  | nil => constructor <;> simp
  | cons c cs ih =>
    have hc : c.isDigit = true := h c (by simp)
    have hrest : ∀ c ∈ cs, c.isDigit = true := fun c hc => h c (by simp [hc])
    obtain ⟨h1, h2⟩ := ih hrest
    constructor
    · simp [List.takeWhile_cons_of_pos hc, h1]
    · simp [List.dropWhile_cons_of_pos hc, h2]

lemma pad2_eq (m : Nat) (h : m < 100) :
    pad2 m = [digitChar (m / 10), digitChar (m % 10)] := by
  interval_cases m <;> decide

lemma parseFixed2?_render (u m : Nat) (h : m < 100) :
    parseFixed2? (natToStr u ++ '.' :: pad2 m) = some (u * 100 + m) := by
  obtain ⟨h1, h2⟩ := takeWhile_digits_append (natToStr u) (pad2 m) (natToStr_digits u)
  unfold parseFixed2?
  rw [pad2_eq m h] at h1 h2 ⊢
  simp only [h1, h2]
  have hne : (natToStr u).isEmpty = false := by
    cases hu : natToStr u with
    | nil => exact absurd hu (natToStr_ne_nil u)
    | cons a as => simp [List.isEmpty]
  simp only [hne, Bool.false_eq_true, if_false, parseNatAux_natToStr u,
    charDigitVal?_digitChar (Nat.mod_lt _ (by omega : (0:Nat) < 10)),
    charDigitVal?_digitChar (by omega : m / 10 < 10)]
  congr 1
  omega

lemma format_score_cp (c : Int) :
    format_score (.cp c) =
      (if 0 ≤ c then '+' else '-') :: (natToStr (c.natAbs / 100) ++ '.' :: pad2 (c.natAbs % 100)) := by
  rcases le_or_lt 0 c with hc | hc
  · simp [format_score, floatFmt2, hc, not_lt.mpr hc]
  · simp [format_score, floatFmt2, hc, not_le.mpr hc]

lemma format_score_cp_render (c : Int) :
    format_score (.cp c) = renderSDec ⟨decide (c < 0), c.natAbs⟩ := by
  rw [format_score_cp]
  unfold renderSDec
  rcases le_or_lt 0 c with hc | hc
  · simp [hc, decide_eq_false (not_lt.mpr hc)]
  · simp [hc, not_le.mpr hc, decide_eq_true hc]

lemma pyFloat?_cons_plus (rest : PyStr) :
    pyFloat? ('+' :: rest) = (parseFixed2? rest).map (SDec.mk false) := rfl

lemma pyFloat?_cons_minus (rest : PyStr) :
    pyFloat? ('-' :: rest) = (parseFixed2? rest).map (SDec.mk true) := rfl

lemma pyFloat?_format_score_cp (c : Int) :
    pyFloat? (format_score (.cp c)) = some ⟨decide (c < 0), c.natAbs⟩ := by
  have h100 : c.natAbs % 100 < 100 := by omega
  have hp := parseFixed2?_render (c.natAbs / 100) (c.natAbs % 100) h100
  have hval : c.natAbs / 100 * 100 + c.natAbs % 100 = c.natAbs := by omega
  rw [format_score_cp]
  rcases le_or_lt 0 c with hc | hc
  · rw [if_pos hc, pyFloat?_cons_plus, hp, hval]
    simp [decide_eq_false (not_lt.mpr hc)]
  · rw [if_neg (not_le.mpr hc), pyFloat?_cons_minus, hp, hval]
    simp [decide_eq_true hc]

lemma pyReplaceAux_no_match (p : Char) (ps r : PyStr) (hp : p.isDigit = false) :
    ∀ fuel s, (∀ c ∈ s, c.isDigit = true) → pyReplaceAux (p :: ps) r fuel s = s := by
  intro fuel
  induction fuel with
  | zero => intro s _; cases s <;> rfl
  | succ f ih =>
    intro s hs
    cases s with
    | nil => rfl
    | cons c cs =>
      have hc : c.isDigit = true := hs c (by simp)
      have hpc : (p == c) = false := by
        refine beq_eq_false_iff_ne.mpr fun h => ?_
        subst h; rw [hc] at hp; cases hp
      simp only [pyReplaceAux, List.isPrefixOf_cons₂, hpc, Bool.false_and, Bool.and_false,
        Bool.false_eq_true, if_false, List.cons.injEq, true_and]
      exact ih cs fun c hcc => hs c (by simp [hcc])

lemma pyReplaceAux_mate_step (r : PyStr) (fuel : Nat) (s : PyStr) :
    pyReplaceAux (lit "Mate in ") r (fuel + 1) (lit "Mate in " ++ s) =
      r ++ pyReplaceAux (lit "Mate in ") r fuel s := by
  have hcons : lit "Mate in " ++ s
      = 'M' :: ('a' :: 't' :: 'e' :: ' ' :: 'i' :: 'n' :: ' ' :: s) := rfl
  have hcond : (!(lit "Mate in ").isEmpty &&
      (lit "Mate in ").isPrefixOf ('M' :: 'a' :: 't' :: 'e' :: ' ' :: 'i' :: 'n' :: ' ' :: s))
      = true := by
    simp [lit, List.isPrefixOf]
  rw [hcons, pyReplaceAux.eq_3, if_pos hcond]
  rfl

lemma pyReplaceAux_mated_step (r : PyStr) (fuel : Nat) (s : PyStr) :
    pyReplaceAux (lit "Mated in ") r (fuel + 1) (lit "Mated in " ++ s) =
      r ++ pyReplaceAux (lit "Mated in ") r fuel s := by
  have hcons : lit "Mated in " ++ s
      = 'M' :: ('a' :: 't' :: 'e' :: 'd' :: ' ' :: 'i' :: 'n' :: ' ' :: s) := rfl
  have hcond : (!(lit "Mated in ").isEmpty &&
      (lit "Mated in ").isPrefixOf
        ('M' :: 'a' :: 't' :: 'e' :: 'd' :: ' ' :: 'i' :: 'n' :: ' ' :: s)) = true := by
    simp [lit, List.isPrefixOf]
  rw [hcons, pyReplaceAux.eq_3, if_pos hcond]
  rfl

lemma pyReplace_mate (ds : PyStr) (h : ∀ c ∈ ds, c.isDigit = true) :
    pyReplace (lit "Mate in ") [] (lit "Mate in " ++ ds) = ds := by
  unfold pyReplace
  have h8 : (lit "Mate in ").length = 8 := rfl
  have hl : (lit "Mate in " ++ ds).length = ds.length + 7 + 1 := by
    rw [List.length_append, h8]; omega
  rw [hl, pyReplaceAux_mate_step, List.nil_append]
  exact pyReplaceAux_no_match 'M' (lit "ate in ") [] (by decide) _ ds h

lemma pyReplace_mated (ds : PyStr) (h : ∀ c ∈ ds, c.isDigit = true) :
    pyReplace (lit "Mated in ") [] (lit "Mated in " ++ ds) = ds := by
  unfold pyReplace
  have h9 : (lit "Mated in ").length = 9 := rfl
  have hl : (lit "Mated in " ++ ds).length = ds.length + 8 + 1 := by
    rw [List.length_append, h9]; omega
  rw [hl, pyReplaceAux_mated_step, List.nil_append]
  exact pyReplaceAux_no_match 'M' (lit "ated in ") [] (by decide) _ ds h

lemma fds_na (b : Bool) : format_display_score (lit "N/A") b = lit "N/A" := rfl

lemma fds_mate_white (ds : PyStr) :
    format_display_score (lit "Mate in " ++ ds) true = lit "Mate in " ++ ds := rfl

lemma fds_mated_white (ds : PyStr) :
    format_display_score (lit "Mated in " ++ ds) true = lit "Mated in " ++ ds := rfl

lemma fds_mate_black (ds : PyStr) (h : ∀ c ∈ ds, c.isDigit = true) :
    format_display_score (lit "Mate in " ++ ds) false = lit "Mated in " ++ ds := by
  show lit "Mated in " ++ pyReplace (lit "Mate in ") [] (lit "Mate in " ++ ds)
      = lit "Mated in " ++ ds
  rw [pyReplace_mate ds h]

lemma fds_mated_black (ds : PyStr) (h : ∀ c ∈ ds, c.isDigit = true) :
    format_display_score (lit "Mated in " ++ ds) false = lit "Mate in " ++ ds := by
  show lit "Mate in " ++ pyReplace (lit "Mated in ") [] (lit "Mated in " ++ ds)
      = lit "Mate in " ++ ds
  rw [pyReplace_mated ds h]

lemma fds_not_special (s : PyStr) (b : Bool) (hna : ¬ s = lit "N/A")
    (hm : (lit "Mate in").isPrefixOf s = false)
    (hmd : (lit "Mated in").isPrefixOf s = false) :
    format_display_score s b =
      match pyFloat? s with
      | some value => renderSDec (if b then value else negSDec value)
      | none => s := by
  simp [format_display_score, hna, hm, hmd]

lemma fds_cp (c : Int) (b : Bool) :
    format_display_score (format_score (.cp c)) b =
      renderSDec (if b then (⟨decide (c < 0), c.natAbs⟩ : SDec)
                  else negSDec ⟨decide (c < 0), c.natAbs⟩) := by
  have hna : ¬ format_score (.cp c) = lit "N/A" := by
    rw [format_score_cp]
    intro h
    injection h with h1 _
    rcases le_or_lt 0 c with hc | hc
    · rw [if_pos hc] at h1; exact absurd h1 (by decide)
    · rw [if_neg (not_le.mpr hc)] at h1; exact absurd h1 (by decide)
  have hm : (lit "Mate in").isPrefixOf (format_score (.cp c)) = false := by
    rw [format_score_cp]
    rcases le_or_lt 0 c with hc | hc
    · rw [if_pos hc]; rfl
    · rw [if_neg (not_le.mpr hc)]; rfl
  have hmd : (lit "Mated in").isPrefixOf (format_score (.cp c)) = false := by
    rw [format_score_cp]
    rcases le_or_lt 0 c with hc | hc
    · rw [if_pos hc]; rfl
    · rw [if_neg (not_le.mpr hc)]; rfl
  rw [fds_not_special _ _ hna hm hmd, pyFloat?_format_score_cp c]

/-! ### Lemmas about the aggregator -/

lemma length_extendTo (acc : List LineAccum) (i : Nat) :
    (extendTo acc i).length = max acc.length (i + 1) := by
  simp [extendTo]; omega

lemma lt_length_extendTo (acc : List LineAccum) (i : Nat) :
    i < (extendTo acc i).length := by
  rw [length_extendTo]; omega

lemma getD_extendTo (acc : List LineAccum) (i j : Nat) :
    (extendTo acc i).getD j emptyAccum = acc.getD j emptyAccum := by
  simp only [extendTo, List.getD_eq_getElem?_getD]
  rcases lt_or_ge j acc.length with h | h
  · rw [List.getElem?_append_left h]
  · rw [List.getElem?_append_right h, List.getElem?_eq_none h, List.getElem?_replicate]
    split <;> rfl

lemma getD_set_self (l : List LineAccum) (i : Nat) (a : LineAccum) (h : i < l.length) :
    (l.set i a).getD i emptyAccum = a := by
  simp [List.getD_eq_getElem?_getD, List.getElem?_set_self h]

lemma getD_set_ne (l : List LineAccum) (i j : Nat) (a : LineAccum) (h : i ≠ j) :
    (l.set i a).getD j emptyAccum = l.getD j emptyAccum := by
  simp [List.getD_eq_getElem?_getD, List.getElem?_set_ne h]

section AggregatorLemmas

variable {Board Move : Type} (san : Board → Move → Option PyStr)
  (push : Board → Move → Board) (uci : Move → PyStr) (board : Board)

lemma processInfo_none (acc : List LineAccum) (info : EngineInfo Move)
    (h : info.multipv = none) : processInfo san push uci board acc info = acc := by
  simp [processInfo, h]

lemma processInfo_getD_self (acc : List LineAccum) (info : EngineInfo Move) (mpv : Nat)
    (h : info.multipv = some mpv) :
    (processInfo san push uci board acc info).getD (mpv - 1) emptyAccum =
      applyInfo san push uci board (acc.getD (mpv - 1) emptyAccum) info := by
  simp only [processInfo, h]
  rw [getD_set_self _ _ _ (lt_length_extendTo acc (mpv - 1)), getD_extendTo]

lemma processInfo_getD_ne (acc : List LineAccum) (info : EngineInfo Move) (mpv j : Nat)
    (h : info.multipv = some mpv) (hj : j ≠ mpv - 1) :
    (processInfo san push uci board acc info).getD j emptyAccum =
      acc.getD j emptyAccum := by
  simp only [processInfo, h]
  rw [getD_set_ne _ _ _ _ (Ne.symm hj), getD_extendTo]

lemma applyInfo_score (r : LineAccum) (info : EngineInfo Move) :
    (applyInfo san push uci board r info).score =
      match info.score with
      | some s => some (format_score s)
      | none => r.score := by
  obtain ⟨mpv, sc, pv, dep⟩ := info
  cases sc <;> cases pv <;> cases dep <;> simp [applyInfo]

lemma applyInfo_score_value (r : LineAccum) (info : EngineInfo Move) :
    (applyInfo san push uci board r info).score_value =
      match info.score with
      | some s => some (score_value s)
      | none => r.score_value := by
  obtain ⟨mpv, sc, pv, dep⟩ := info
  cases sc <;> cases pv <;> cases dep <;> simp [applyInfo]

lemma applyInfo_pv (r : LineAccum) (info : EngineInfo Move) :
    (applyInfo san push uci board r info).pv =
      match info.pv with
      | some pv => some ((pv.take 10).map uci)
      | none => r.pv := by
  obtain ⟨mpv, sc, pv, dep⟩ := info
  cases sc <;> cases pv <;> cases dep <;> simp [applyInfo]

lemma applyInfo_pv_san (r : LineAccum) (info : EngineInfo Move) :
    (applyInfo san push uci board r info).pv_san =
      match info.pv with
      | some pv => some (pv_to_san san push board (pv.take 10)).1
      | none => r.pv_san := by
  obtain ⟨mpv, sc, pv, dep⟩ := info
  cases sc <;> cases pv <;> cases dep <;> simp [applyInfo]

lemma applyInfo_depth (r : LineAccum) (info : EngineInfo Move) :
    (applyInfo san push uci board r info).depth =
      match info.depth with
      | some d => some d
      | none => r.depth := by
  obtain ⟨mpv, sc, pv, dep⟩ := info
  cases sc <;> cases pv <;> cases dep <;> simp [applyInfo]

lemma processInfo_pv_isSome (acc : List LineAccum) (u : EngineInfo Move) (j : Nat)
    (hwf : ∀ m, u.multipv = some m → 1 ≤ m) :
    ((processInfo san push uci board acc u).getD j emptyAccum).pv.isSome = true ↔
      ((acc.getD j emptyAccum).pv.isSome = true ∨
        (u.multipv = some (j + 1) ∧ u.pv.isSome = true)) := by
  cases hm : u.multipv with
  | none => rw [processInfo_none san push uci board acc u hm]; simp [hm]
  | some m =>
    have h1 : 1 ≤ m := hwf m hm
    by_cases hj : j = m - 1
    · subst hj
      rw [processInfo_getD_self san push uci board acc u m hm,
        applyInfo_pv san push uci board]
      have hmj : m = m - 1 + 1 := by omega
      cases hp : u.pv with
      | none => simp [hm, hp, ← hmj]
      | some pv => simp [hm, hp, ← hmj]
    · rw [processInfo_getD_ne san push uci board acc u m j hm hj]
      simp only [hm, Option.some.injEq]
      constructor
      · exact Or.inl
      · rintro (h | ⟨hmeq, _⟩)
        · exact h
        · exact absurd (by omega : j = m - 1) hj

lemma foldl_pv_isSome :
    ∀ (stream : List (EngineInfo Move)) (init : List LineAccum),
      (∀ u ∈ stream, ∀ m, u.multipv = some m → 1 ≤ m) → ∀ j,
      ((stream.foldl (processInfo san push uci board) init).getD j emptyAccum).pv.isSome
          = true ↔
        ((init.getD j emptyAccum).pv.isSome = true ∨
          ∃ u ∈ stream, u.multipv = some (j + 1) ∧ u.pv.isSome = true) := by
  intro stream
  induction stream with
  | nil => intro init _ j; simp
  | cons u rest ih =>
    intro init hwf j
    rw [List.foldl_cons,
      ih (processInfo san push uci board init u) (fun v hv => hwf v (by simp [hv])) j,
      processInfo_pv_isSome san push uci board init u j (hwf u (by simp))]
    simp only [List.mem_cons, exists_eq_or_imp]
    tauto

lemma runStream_pv_isSome (stream : List (EngineInfo Move))
    (hwf : ∀ u ∈ stream, ∀ m, u.multipv = some m → 1 ≤ m) (j : Nat) :
    ((runStream san push uci board stream).getD j emptyAccum).pv.isSome = true ↔
      ∃ u ∈ stream, u.multipv = some (j + 1) ∧ u.pv.isSome = true := by
  rw [runStream, foldl_pv_isSome san push uci board stream [] hwf j]
  simp [emptyAccum]

end AggregatorLemmas

lemma getD_of_length_le (l : List LineAccum) (j : Nat) (h : l.length ≤ j) :
    l.getD j emptyAccum = emptyAccum := by
  simp [List.getD_eq_getElem?_getD, List.getElem?_eq_none h]

lemma accumTruthy_of_pv (r : LineAccum) (h : r.pv.isSome = true) :
    accumTruthy r = true := by
  simp [accumTruthy, h]

lemma mkRankedMove_rank (w : Bool) (i : Nat) (m : PyStr) (sans : List PyStr)
    (r : LineAccum) : (mkRankedMove w i m sans r).rank = i + 1 := rfl

lemma mkRankedMove_move_san_nil (w : Bool) (i : Nat) (m : PyStr) (r : LineAccum) :
    (mkRankedMove w i m [] r).move_san = m := rfl

lemma mkRankedMove_score (w : Bool) (i : Nat) (m : PyStr) (sans : List PyStr)
    (r : LineAccum) :
    (mkRankedMove w i m sans r).score
      = format_display_score (r.score.getD (lit "N/A")) w := rfl

lemma mkRankedMove_score_value (w : Bool) (i : Nat) (m : PyStr) (sans : List PyStr)
    (r : LineAccum) :
    (mkRankedMove w i m sans r).score_value = displayValue w (r.score_value.getD 0) := rfl

lemma mkRankedMove_full_line (w : Bool) (i : Nat) (m : PyStr) (sans : List PyStr)
    (r : LineAccum) : (mkRankedMove w i m sans r).full_line = sans := rfl

lemma buildMoves_cons_skip (w : Bool) (i : Nat) (result : LineAccum)
    (rest : List LineAccum) (h : result.pv = none) :
    buildMoves w i (result :: rest) = buildMoves w (i + 1) rest := by
  simp [buildMoves, h]

lemma buildMoves_cons_emit (w : Bool) (i : Nat) (result : LineAccum)
    (rest : List LineAccum) (m : PyStr) (l sans : List PyStr)
    (hpv : result.pv = some (m :: l)) (hsan : result.pv_san = some sans) :
    buildMoves w i (result :: rest) =
      (buildMoves w (i + 1) rest).map (mkRankedMove w i m sans result :: ·) := by
  simp [buildMoves, hpv, hsan, accumTruthy_of_pv result (by simp [hpv])]

lemma buildMoves_cons_empty_pv (w : Bool) (i : Nat) (result : LineAccum)
    (rest : List LineAccum) (hpv : result.pv = some []) :
    buildMoves w i (result :: rest) = none := by
  simp [buildMoves, hpv, accumTruthy_of_pv result (by simp [hpv])]

lemma buildMoves_cons_no_san (w : Bool) (i : Nat) (result : LineAccum)
    (rest : List LineAccum) (m : PyStr) (l : List PyStr)
    (hpv : result.pv = some (m :: l)) (hsan : result.pv_san = none) :
    buildMoves w i (result :: rest) = none := by
  simp [buildMoves, hpv, hsan, accumTruthy_of_pv result (by simp [hpv])]

/-- Success of the finalization loop on a cons cell always passes success
down to the tail, and the produced list is the tail's list, possibly with
the head's entry in front. -/
lemma buildMoves_cons_inv (w : Bool) (i : Nat) (result : LineAccum)
    (rest : List LineAccum) (out : List RankedMove)
    (h : buildMoves w i (result :: rest) = some out) :
    ∃ out', buildMoves w (i + 1) rest = some out' ∧
      ((out = out' ∧ result.pv = none) ∨
        ∃ m l sans, result.pv = some (m :: l) ∧ result.pv_san = some sans ∧
          out = mkRankedMove w i m sans result :: out') := by
  rcases hpv : result.pv with _ | pv
  · rw [buildMoves_cons_skip w i result rest hpv] at h
    exact ⟨out, h, Or.inl ⟨rfl, rfl⟩⟩
  · cases pv with
    | nil => rw [buildMoves_cons_empty_pv w i result rest hpv] at h; cases h
    | cons m l =>
      rcases hsan : result.pv_san with _ | sans
      · rw [buildMoves_cons_no_san w i result rest m l hpv hsan] at h; cases h
      · rw [buildMoves_cons_emit w i result rest m l sans hpv hsan] at h
        cases hrec : buildMoves w (i + 1) rest with
        | none => rw [hrec] at h; cases h
        | some out' =>
          rw [hrec] at h
          simp only [Option.map_some', Option.some.injEq] at h
          exact ⟨out', rfl, Or.inr ⟨m, l, sans, rfl, rfl, h.symm⟩⟩

lemma buildMoves_sorted (w : Bool) :
    ∀ (accs : List LineAccum) (i : Nat) (out : List RankedMove),
      buildMoves w i accs = some out →
      (∀ e ∈ out, i < e.rank) ∧ List.Pairwise (fun a b => a.rank < b.rank) out := by
  intro accs
  induction accs with
  | nil =>
    intro i out h
    simp only [buildMoves, Option.some.injEq] at h
    subst h; simp
  | cons result rest ih =>
    intro i out h
    obtain ⟨out', hrec, hcase⟩ := buildMoves_cons_inv w i result rest out h
    obtain ⟨h1, h2⟩ := ih (i + 1) out' hrec
    rcases hcase with ⟨rfl, -⟩ | ⟨m, l, sans, _, _, rfl⟩
    · exact ⟨fun e he => by have := h1 e he; omega, h2⟩
    · constructor
      · intro e he
        rcases List.mem_cons.mp he with rfl | he'
        · rw [mkRankedMove_rank]; omega
        · have := h1 e he'; omega
      · refine List.Pairwise.cons (fun e he => ?_) h2
        rw [mkRankedMove_rank]
        have := h1 e he
        omega

lemma buildMoves_sound (w : Bool) :
    ∀ (accs : List LineAccum) (i : Nat) (out : List RankedMove),
      buildMoves w i accs = some out →
      ∀ e ∈ out, ∃ j m l sans, j < accs.length ∧ e.rank = i + j + 1 ∧
        (accs.getD j emptyAccum).pv = some (m :: l) ∧
        (accs.getD j emptyAccum).pv_san = some sans ∧
        e = mkRankedMove w (i + j) m sans (accs.getD j emptyAccum) := by
  intro accs
  induction accs with
  | nil =>
    intro i out h
    simp only [buildMoves, Option.some.injEq] at h
    subst h; simp
  | cons result rest ih =>
    intro i out h e he
    obtain ⟨out', hrec, hcase⟩ := buildMoves_cons_inv w i result rest out h
    rcases hcase with ⟨rfl, -⟩ | ⟨m, l, sans, hpv, hsan, rfl⟩
    · obtain ⟨j, m, l, sans, hj, hrank, hpvj, hsanj, heq⟩ := ih (i + 1) _ hrec e he
      refine ⟨j + 1, m, l, sans, by simpa using hj, by omega, by simpa using hpvj,
        by simpa using hsanj, ?_⟩
      have harith : i + 1 + j = i + (j + 1) := by omega
      rw [harith] at heq
      simpa using heq
    · rcases List.mem_cons.mp he with rfl | he'
      · exact ⟨0, m, l, sans, by simp, by rw [mkRankedMove_rank], by simp [hpv],
          by simp [hsan], by simp⟩
      · obtain ⟨j, m', l', sans', hj, hrank, hpvj, hsanj, heq⟩ := ih (i + 1) out' hrec e he'
        refine ⟨j + 1, m', l', sans', by simpa using hj, by omega, by simpa using hpvj,
          by simpa using hsanj, ?_⟩
        have harith : i + 1 + j = i + (j + 1) := by omega
        rw [harith] at heq
        simpa using heq

lemma buildMoves_success_shape (w : Bool) :
    ∀ (accs : List LineAccum) (i : Nat) (out : List RankedMove),
      buildMoves w i accs = some out →
      ∀ j, j < accs.length → ((accs.getD j emptyAccum).pv).isSome = true →
        ∃ m l sans, (accs.getD j emptyAccum).pv = some (m :: l) ∧
          (accs.getD j emptyAccum).pv_san = some sans := by
  intro accs
  induction accs with
  | nil => intro i out _ j hj; simp at hj
  | cons result rest ih =>
    intro i out h j hj hpvs
    cases j with
    | zero =>
      simp only [List.getD_cons_zero] at hpvs ⊢
      rcases hpv : result.pv with _ | pvl
      · rw [hpv] at hpvs; cases hpvs
      · cases pvl with
        | nil => rw [buildMoves_cons_empty_pv w i result rest hpv] at h; cases h
        | cons m l =>
          rcases hsan : result.pv_san with _ | sans
          · rw [buildMoves_cons_no_san w i result rest m l hpv hsan] at h; cases h
          · exact ⟨m, l, sans, rfl, rfl⟩
    | succ k =>
      simp only [List.getD_cons_succ] at hpvs ⊢
      obtain ⟨out', hrec, -⟩ := buildMoves_cons_inv w i result rest out h
      exact ih (i + 1) out' hrec k (by simpa using hj) hpvs

lemma buildMoves_complete (w : Bool) :
    ∀ (accs : List LineAccum) (i : Nat) (out : List RankedMove),
      buildMoves w i accs = some out →
      ∀ j, j < accs.length → ∀ m l sans,
        (accs.getD j emptyAccum).pv = some (m :: l) →
        (accs.getD j emptyAccum).pv_san = some sans →
        mkRankedMove w (i + j) m sans (accs.getD j emptyAccum) ∈ out := by
  intro accs
  induction accs with
  | nil => intro i out _ j hj; simp at hj
  | cons result rest ih =>
    intro i out h j hj m l sans hpv hsan
    obtain ⟨out', hrec, hcase⟩ := buildMoves_cons_inv w i result rest out h
    cases j with
    | zero =>
      simp only [List.getD_cons_zero] at hpv hsan
      rcases hcase with ⟨rfl, hpvnone⟩ | ⟨m', l', sans', hpv', hsan', rfl⟩
      · rw [hpvnone] at hpv; cases hpv
      · rw [hpv'] at hpv
        rw [hsan'] at hsan
        simp only [Option.some.injEq, List.cons.injEq] at hpv hsan
        obtain ⟨hm, hl⟩ := hpv
        subst hm; subst hl; subst hsan
        simp only [Nat.add_zero, List.getD_cons_zero]
        exact List.mem_cons_self _ _
    | succ k =>
      simp only [List.getD_cons_succ] at hpv hsan
      have hk : k < rest.length := by simpa using hj
      have hmem := ih (i + 1) out' hrec k hk m l sans hpv hsan
      have harith : i + 1 + k = i + (k + 1) := by omega
      rw [harith] at hmem
      simp only [List.getD_cons_succ]
      rcases hcase with ⟨rfl, -⟩ | ⟨m', l', sans', _, _, rfl⟩
      · exact hmem
      · exact List.mem_cons_of_mem _ hmem

/-! ### Claim theorems -/

/-- C3: the Perspective Normalizer (`_format_display_score` plus the sign
flip of line 276) leaves the display string and the comparable value
unchanged when White is to move; when Black is to move it negates the
comparable value, rewrites "Mate in N" to "Mated in N" and "Mated in N"
to "Mate in N", re-renders a signed-decimal string with its (float)
numeric value negated in the same 2-decimal always-signed format (float
negation flips the sign bit, which for the value 0.00 prints "-0.00"),
and passes "N/A" through unchanged. -/
theorem c3_perspective_normalizer :
    (∀ sc : Score, format_display_score (format_score sc) true = format_score sc) ∧
    (∀ b : Bool, format_display_score (lit "N/A") b = lit "N/A") ∧
    (∀ n : Int, 0 < n →
      format_display_score (format_score (.mate n)) false
        = lit "Mated in " ++ natToStr n.toNat) ∧
    (∀ n : Int, n < 0 →
      format_display_score (format_score (.mate n)) false
        = lit "Mate in " ++ natToStr n.natAbs) ∧
    (∀ c : Int, format_display_score (format_score (.cp c)) false
        = renderSDec (negSDec ⟨decide (c < 0), c.natAbs⟩)) ∧
    (∀ v : Int, displayValue true v = v ∧ displayValue false v = -v) := by
  refine ⟨?_, fds_na, ?_, ?_, ?_, ?_⟩
  · intro sc
    match sc with
    | .cp c =>
      rw [fds_cp c true]
      simp only [if_true]
      exact (format_score_cp_render c).symm
    | .mate n =>
      rcases lt_or_le 0 n with hn | hn
      · rw [show format_score (.mate n) = lit "Mate in " ++ natToStr n.toNat from by
          simp [format_score, hn]]
        exact fds_mate_white _
      · rw [show format_score (.mate n) = lit "Mated in " ++ natToStr n.natAbs from by
          simp [format_score, not_lt.mpr hn]]
        exact fds_mated_white _
  · intro n hn
    rw [show format_score (.mate n) = lit "Mate in " ++ natToStr n.toNat from by
      simp [format_score, hn]]
    exact fds_mate_black _ (natToStr_digits _)
  · intro n hn
    have h2 : ¬ 0 < n := by omega
    rw [show format_score (.mate n) = lit "Mated in " ++ natToStr n.natAbs from by
      simp [format_score, h2]]
    exact fds_mated_black _ (natToStr_digits _)
  · intro c
    rw [fds_cp c false]
    simp
  · intro v
    simp [displayValue]

theorem c3_perspective_normalizer_witness :
    (0 < (3 : Int) ∧
      format_display_score (format_score (.mate 3)) false
        = lit "Mated in " ++ natToStr (3 : Int).toNat) ∧
    ((-2 : Int) < 0 ∧
      format_display_score (format_score (.mate (-2))) false
        = lit "Mate in " ++ natToStr (-2 : Int).natAbs) :=
  ⟨⟨by decide, c3_perspective_normalizer.2.2.1 3 (by decide)⟩,
   ⟨by decide, c3_perspective_normalizer.2.2.2.1 (-2) (by decide)⟩⟩

/-- C4: applying the Perspective Normalizer once with White to move and
once with Black to move yields comparable values that are exact negations
of each other, and under Black to move "Mate in N" becomes exactly
"Mated in N" and "Mated in N" becomes exactly "Mate in N" (for any
decimal-digit string N). -/
theorem c4_negation_and_mate_mated_flip :
    (∀ sc : Score,
      displayValue true (score_value sc) = - displayValue false (score_value sc)) ∧
    (∀ ds : PyStr, (∀ c ∈ ds, c.isDigit = true) →
      format_display_score (lit "Mate in " ++ ds) false = lit "Mated in " ++ ds ∧
      format_display_score (lit "Mated in " ++ ds) false = lit "Mate in " ++ ds) := by
  constructor
  · intro sc; simp [displayValue]
  · intro ds h
    exact ⟨fds_mate_black ds h, fds_mated_black ds h⟩

theorem c4_negation_and_mate_mated_flip_witness :
    (∀ c ∈ lit "3", c.isDigit = true) ∧
    format_display_score (lit "Mate in " ++ lit "3") false = lit "Mated in " ++ lit "3" ∧
    format_display_score (lit "Mated in " ++ lit "3") false = lit "Mate in " ++ lit "3" :=
  ⟨by decide, c4_negation_and_mate_mated_flip.2 (lit "3") (by decide)⟩

/-- C6: the Score Formatter (`_format_score` and the `score_value`
expression of line 252) renders a positive mate count N as "Mate in N"
with comparable value +10000, a negative mate count N as "Mated in |N|"
with comparable value -10000, and a centipawn value C as C/100 with two
decimals and the sign always shown (also for non-negative values) with
comparable value C; a rank with no recorded score surfaces as "N/A"
(via `result.get('score', 'N/A')` in the finalization loop). -/
theorem c6_score_formatter :
    (∀ n : Int, 0 < n →
      format_score (.mate n) = lit "Mate in " ++ natToStr n.toNat ∧
      score_value (.mate n) = 10000) ∧
    (∀ n : Int, n < 0 →
      format_score (.mate n) = lit "Mated in " ++ natToStr n.natAbs ∧
      score_value (.mate n) = -10000) ∧
    (∀ c : Int,
      format_score (.cp c)
        = (if 0 ≤ c then '+' else '-')
            :: (natToStr (c.natAbs / 100) ++ '.' :: pad2 (c.natAbs % 100)) ∧
      score_value (.cp c) = c) ∧
    (∀ (w : Bool) (i : Nat) (m : PyStr) (sans : List PyStr) (r : LineAccum),
      r.score = none → (mkRankedMove w i m sans r).score = lit "N/A") ∧
    format_score (.cp 125) = lit "+1.25" ∧ format_score (.cp (-50)) = lit "-0.50" ∧
    format_score (.mate (-3)) = lit "Mated in 3" := by
  refine ⟨?_, ?_, ?_, ?_, by decide, by decide, by decide⟩
  · intro n hn
    exact ⟨by simp [format_score, hn], by simp [score_value, hn]⟩
  · intro n hn
    have h2 : ¬ 0 < n := by omega
    exact ⟨by simp [format_score, h2], by simp [score_value, h2]⟩
  · intro c
    exact ⟨format_score_cp c, rfl⟩
  · intro w i m sans r h
    rw [mkRankedMove_score, h]
    exact fds_na w

theorem c6_score_formatter_witness :
    (0 < (3 : Int) ∧
      format_score (.mate 3) = lit "Mate in " ++ natToStr (3 : Int).toNat ∧
      score_value (.mate 3) = 10000) ∧
    ((-3 : Int) < 0 ∧
      format_score (.mate (-3)) = lit "Mated in " ++ natToStr (-3 : Int).natAbs ∧
      score_value (.mate (-3)) = -10000) :=
  ⟨⟨by decide, c6_score_formatter.1 3 (by decide)⟩,
   ⟨by decide, c6_score_formatter.2.1 (-3) (by decide)⟩⟩

/-- C9: converting a PV to human notation leaves the caller's board
unchanged: `_pv_to_san` simulates the moves only on `board.copy()`
(modelled by threading only the copy through `sanWalk`), so the board
value the caller observes after the call is the one passed in. -/
theorem c9_pv_to_san_preserves_board {Board Move : Type}
    (san : Board → Move → Option PyStr) (push : Board → Move → Board)
    (board : Board) (pv : List Move) :
    (pv_to_san san push board pv).2 = board := rfl

/-- C10: `validate_fen` is total (a returned pair, never an exception —
the only exception source, `chess.Board(fen)`, raises only `ValueError`
for a string argument, and that is caught): an unparseable FEN yields
`(False, "Invalid FEN: ...")` whose message begins with "Invalid FEN",
a parseable FEN describing an illegal board yields
`(False, "Invalid board position")`, and a valid FEN yields
`(True, "Valid FEN")`. -/
theorem c10_validate_fen_total {Board : Type} (parse : PyStr → Except PyStr Board)
    (isValid : Board → Bool) (fen : PyStr) :
    (∀ e, parse fen = .error e →
      validate_fen parse isValid fen = (false, lit "Invalid FEN: " ++ e) ∧
      (lit "Invalid FEN").isPrefixOf (validate_fen parse isValid fen).2 = true) ∧
    (∀ b, parse fen = .ok b → isValid b = true →
      validate_fen parse isValid fen = (true, lit "Valid FEN")) ∧
    (∀ b, parse fen = .ok b → isValid b = false →
      validate_fen parse isValid fen = (false, lit "Invalid board position")) := by
  refine ⟨fun e hp => ?_, fun b hp hv => ?_, fun b hp hv => ?_⟩
  · have hval : validate_fen parse isValid fen = (false, lit "Invalid FEN: " ++ e) := by
      simp [validate_fen, hp]
    refine ⟨hval, ?_⟩
    rw [hval]
    rfl
  · simp [validate_fen, hp, hv]
  · simp [validate_fen, hp, hv]

def exParseFail : PyStr → Except PyStr Unit := fun _ => .error (lit "syntax")

def exParseOk : PyStr → Except PyStr Unit := fun _ => .ok ()

def exIsValid : Unit → Bool := fun _ => true

theorem c10_validate_fen_total_witness :
    validate_fen exParseFail exIsValid (lit "x") = (false, lit "Invalid FEN: syntax") ∧
    validate_fen exParseOk exIsValid (lit "x") = (true, lit "Valid FEN") :=
  ⟨((c10_validate_fen_total exParseFail exIsValid (lit "x")).1 (lit "syntax") rfl).1,
   (c10_validate_fen_total exParseOk exIsValid (lit "x")).2.1 () rfl rfl⟩

/-! Concrete instances used by witnesses and counterexamples: the board is
a unit value, moves are numbers, `exUci` prints the number and `exSan`
prefixes it with `m` (while `exSanFail` models a san conversion that
raises on every ply). -/

def exSan : Unit → Nat → Option PyStr := fun _ m => some ('m' :: natToStr m)

def exSanFail : Unit → Nat → Option PyStr := fun _ _ => none

def exPush : Unit → Nat → Unit := fun _ _ => ()

def exUci : Nat → PyStr := natToStr

def exTurnOf : Unit → Bool := fun _ => true

def exGetContext : Unit → Unit := fun _ => ()

def exExplain : Unit → List RankedMove → Unit → PyStr → PyStr := fun _ _ _ _ => []

/-- C2: the aggregator merges updates per field, not per record: the
update's target rank accumulator becomes the field-wise merge `applyInfo`
of its old value, where each field present in the update (score and
score_value together, pv and pv_san together, depth) overwrites only that
field and each absent field keeps its previous value; every other rank's
accumulator is untouched.  In particular, a later update carrying a score
but no PV leaves a previously recorded PV intact, and vice versa. -/
theorem c2_per_field_merge {Board Move : Type} (san : Board → Move → Option PyStr)
    (push : Board → Move → Board) (uci : Move → PyStr) (board : Board)
    (acc : List LineAccum) (info : EngineInfo Move) (mpv : Nat)
    (hm : info.multipv = some mpv) (h1 : 1 ≤ mpv) :
    (processInfo san push uci board acc info).getD (mpv - 1) emptyAccum
      = applyInfo san push uci board (acc.getD (mpv - 1) emptyAccum) info ∧
    (∀ j, j ≠ mpv - 1 →
      (processInfo san push uci board acc info).getD j emptyAccum
        = acc.getD j emptyAccum) ∧
    (∀ r : LineAccum,
      (applyInfo san push uci board r info).score
        = (match info.score with | some s => some (format_score s) | none => r.score) ∧
      (applyInfo san push uci board r info).score_value
        = (match info.score with | some s => some (score_value s) | none => r.score_value) ∧
      (applyInfo san push uci board r info).pv
        = (match info.pv with | some pv => some ((pv.take 10).map uci) | none => r.pv) ∧
      (applyInfo san push uci board r info).pv_san
        = (match info.pv with
           | some pv => some (pv_to_san san push board (pv.take 10)).1
           | none => r.pv_san) ∧
      (applyInfo san push uci board r info).depth
        = (match info.depth with | some d => some d | none => r.depth)) :=
  ⟨processInfo_getD_self san push uci board acc info mpv hm,
   fun j hj => processInfo_getD_ne san push uci board acc info mpv j hm hj,
   fun r => ⟨applyInfo_score san push uci board r info,
     applyInfo_score_value san push uci board r info,
     applyInfo_pv san push uci board r info,
     applyInfo_pv_san san push uci board r info,
     applyInfo_depth san push uci board r info⟩⟩

def exInfo1 : EngineInfo Nat :=
  { multipv := some 1, score := some (.cp 50), pv := none, depth := some 10 }

def exInfo2 : EngineInfo Nat :=
  { multipv := some 1, score := none, pv := some [4, 5], depth := some 15 }

def exAccC2 : List LineAccum := processInfo exSan exPush exUci () [] exInfo1

theorem c2_per_field_merge_witness :
    (processInfo exSan exPush exUci () exAccC2 exInfo2).getD 0 emptyAccum
      = { score := some (lit "+0.50"), score_value := some 50,
          pv := some [lit "4", lit "5"], pv_san := some [lit "m4", lit "m5"],
          depth := some 15 } :=
  ((c2_per_field_merge exSan exPush exUci () exAccC2 exInfo2 1 rfl (by decide)).1).trans
    (by decide)

/-- C7: when validation rejects the FEN, `analyze` fails with exactly the
validation message (`raise ValueError(message)`), and it does so for
every engine handle and every update stream — the engine handle is only
obtained (and the stream only consumed) after validation succeeds. -/
theorem c7_invalid_fen_fails_before_engine {Board Move Ctx : Type}
    (parse : PyStr → Except PyStr Board) (isValid : Board → Bool)
    (san : Board → Move → Option PyStr) (push : Board → Move → Board) (uci : Move → PyStr)
    (turnOf : Board → Bool) (getContext : Board → Ctx)
    (explainFn : Board → List RankedMove → Ctx → PyStr → PyStr)
    (default_depth max_depth : Nat) (fen : PyStr) (depth? : Option Nat) (lang : PyStr)
    (h : (validate_fen parse isValid fen).1 = false) :
    ∀ (getEngine : Except PyStr Unit) (stream : List (EngineInfo Move)),
      analyze parse isValid san push uci turnOf getContext explainFn default_depth
          max_depth getEngine stream fen depth? lang
        = .error (validate_fen parse isValid fen).2 := by
  intro getEngine stream
  simp [analyze, h]

theorem c7_invalid_fen_fails_before_engine_witness :
    (validate_fen exParseFail exIsValid (lit "bad fen")).1 = false ∧
    analyze exParseFail exIsValid exSan exPush exUci exTurnOf exGetContext exExplain
        16 20 (Except.ok ()) ([] : List (EngineInfo Nat)) (lit "bad fen") none (lit "en")
      = .error (validate_fen exParseFail exIsValid (lit "bad fen")).2 :=
  ⟨by decide,
   c7_invalid_fen_fails_before_engine exParseFail exIsValid exSan exPush exUci exTurnOf
     exGetContext exExplain 16 20 (lit "bad fen") none (lit "en") (by decide)
     (Except.ok ()) []⟩

/-- C8: with `is_checkmate = true` the template renderer's output ends
immediately after the checkmate line — the assessment lines, the material
line, optionally the check warning, then the checkmate announcement and
nothing else: no move-analysis section, no strategic-considerations
section, no castling notes; in particular the output does not depend on
the RankedMove list at all. -/
theorem c8_checkmate_short_circuit (boardTurn : Bool) (best_moves : List RankedMove)
    (context : PositionContext) (lang : PyStr) (h : context.is_checkmate = true) :
    generate_template_explanation boardTurn best_moves context lang =
      joinNL ([(txtTable lang boardTurn context.phase).position_assessment,
               (txtTable lang boardTurn context.phase).turn_to_move] ++
        (if context.material_balance.balance > 0 then
          [(txtTable lang boardTurn context.phase).material_advantage
            (if lang = lit "en" then lit "White" else lit "Brancas")
            context.material_balance.balance]
         else if context.material_balance.balance < 0 then
          [(txtTable lang boardTurn context.phase).material_advantage
            (if lang = lit "en" then lit "Black" else lit "Pretas")
            |context.material_balance.balance|]
         else [(txtTable lang boardTurn context.phase).material_equal]) ++
        (if context.is_check then [(txtTable lang boardTurn context.phase).in_check]
         else []) ++
        [(txtTable lang boardTurn context.phase).checkmate]) ∧
    (∀ best_moves' : List RankedMove,
      generate_template_explanation boardTurn best_moves context lang
        = generate_template_explanation boardTurn best_moves' context lang) := by
  constructor
  · simp only [generate_template_explanation, h, if_true]
  · intro best_moves'
    simp only [generate_template_explanation, h, if_true]

def exCtxMate : PositionContext :=
  { is_check := true, is_checkmate := true, is_stalemate := false,
    can_castle_kingside_white := true, can_castle_queenside_white := false,
    can_castle_kingside_black := false, can_castle_queenside_black := false,
    material_balance := { white := 10, black := 9, balance := 1 },
    move_number := 12, legal_moves_count := 0, phase := lit "middlegame" }

theorem c8_checkmate_short_circuit_witness :
    exCtxMate.is_checkmate = true ∧
    generate_template_explanation true [] exCtxMate (lit "en") =
      joinNL ([(txtTable (lit "en") true exCtxMate.phase).position_assessment,
               (txtTable (lit "en") true exCtxMate.phase).turn_to_move] ++
        (if exCtxMate.material_balance.balance > 0 then
          [(txtTable (lit "en") true exCtxMate.phase).material_advantage
            (if (lit "en") = lit "en" then lit "White" else lit "Brancas")
            exCtxMate.material_balance.balance]
         else if exCtxMate.material_balance.balance < 0 then
          [(txtTable (lit "en") true exCtxMate.phase).material_advantage
            (if (lit "en") = lit "en" then lit "Black" else lit "Pretas")
            |exCtxMate.material_balance.balance|]
         else [(txtTable (lit "en") true exCtxMate.phase).material_equal]) ++
        (if exCtxMate.is_check then [(txtTable (lit "en") true exCtxMate.phase).in_check]
         else []) ++
        [(txtTable (lit "en") true exCtxMate.phase).checkmate]) :=
  ⟨by decide, (c8_checkmate_short_circuit true [] exCtxMate (lit "en") (by decide)).1⟩

/-- C1 counterexample: a terminated stream whose single update carries a
PV but no score.  The claim says a rank lacking a score is silently
dropped; the finalization loop (`if result and 'pv' in result`,
src/chess_analyzer.py:266) keeps it, defaulting the score fields — the
output is non-empty with rank 1, score "N/A", comparable value 0. -/
theorem c1_counterexample :
    ([{ multipv := some 1, score := none, pv := some [4], depth := some 7 }]
        : List (EngineInfo Nat)).all (fun u => u.score.isNone) = true ∧
    buildMoves true 0 (runStream exSan exPush exUci ()
        [{ multipv := some 1, score := none, pv := some [4], depth := some 7 }])
      = some [{ rank := 1, move := lit "4", move_san := lit "m4", score := lit "N/A",
                score_value := 0, raw_score_value := 0, line := lit "m4",
                full_line := [lit "m4"] }] := by
  exact ⟨by decide, by decide⟩

/-- C1 (amended): for every terminated update stream (ranks are 1-based)
whose finalization succeeds, the finalized list is ordered by rank
ascending and contains exactly those ranks that received a principal
variation, with no placeholder padding for dropped ranks — but a rank
that received a PV and never a score is kept rather than dropped, with
display score "N/A" and comparable value 0. -/
theorem c1_aggregator_output {Board Move : Type} (san : Board → Move → Option PyStr)
    (push : Board → Move → Board) (uci : Move → PyStr) (board : Board) (w : Bool)
    (stream : List (EngineInfo Move))
    (hwf : ∀ u ∈ stream, ∀ m, u.multipv = some m → 1 ≤ m)
    (out : List RankedMove)
    (h : buildMoves w 0 (runStream san push uci board stream) = some out) :
    List.Pairwise (fun a b => a.rank < b.rank) out ∧
    (∀ r : Nat, (∃ e ∈ out, e.rank = r) ↔
      ∃ u ∈ stream, u.multipv = some r ∧ u.pv.isSome = true) ∧
    (∀ e ∈ out,
      ((runStream san push uci board stream).getD (e.rank - 1) emptyAccum).score = none →
      ((runStream san push uci board stream).getD (e.rank - 1) emptyAccum).score_value
          = none →
        e.score = lit "N/A" ∧ e.score_value = 0) := by
  refine ⟨(buildMoves_sorted w _ 0 out h).2, ?_, ?_⟩
  · intro r
    constructor
    · rintro ⟨e, he, rfl⟩
      obtain ⟨j, m, l, sans, hj, hrank, hpv, -, -⟩ := buildMoves_sound w _ 0 out h e he
      have hiss : (((runStream san push uci board stream).getD j emptyAccum).pv).isSome
          = true := by rw [hpv]; rfl
      have hex := (runStream_pv_isSome san push uci board stream hwf j).mp hiss
      rw [hrank]
      simpa using hex
    · rintro ⟨u, hu, hmp, hpv⟩
      have hr1 : 1 ≤ r := hwf u hu r hmp
      have hiss : (((runStream san push uci board stream).getD (r - 1) emptyAccum).pv).isSome
          = true := by
        refine (runStream_pv_isSome san push uci board stream hwf (r - 1)).mpr
          ⟨u, hu, ?_, hpv⟩
        rwa [show r - 1 + 1 = r by omega]
      have hlt : r - 1 < (runStream san push uci board stream).length := by
        by_contra hge
        rw [getD_of_length_le _ (r - 1) (by omega)] at hiss
        simp [emptyAccum] at hiss
      obtain ⟨m, l, sans, hpvj, hsanj⟩ :=
        buildMoves_success_shape w _ 0 out h (r - 1) hlt hiss
      have hmem := buildMoves_complete w _ 0 out h (r - 1) hlt m l sans hpvj hsanj
      exact ⟨_, hmem, by rw [mkRankedMove_rank]; omega⟩
  · intro e he hscore hsv
    obtain ⟨j, m, l, sans, hj, hrank, hpv, hsan, heq⟩ := buildMoves_sound w _ 0 out h e he
    have hj' : e.rank - 1 = j := by omega
    rw [hj'] at hscore hsv
    subst heq
    constructor
    · rw [mkRankedMove_score, hscore]
      exact fds_na w
    · rw [mkRankedMove_score_value, hsv]
      cases w <;> simp [displayValue]

def exStreamW : List (EngineInfo Nat) :=
  [{ multipv := some 1, score := some (.cp 50), pv := some [4], depth := some 7 }]

def exOutW : List RankedMove :=
  [{ rank := 1, move := lit "4", move_san := lit "m4", score := lit "+0.50",
     score_value := 50, raw_score_value := 50, line := lit "m4",
     full_line := [lit "m4"] }]

theorem c1_aggregator_output_witness :
    List.Pairwise (fun a b => a.rank < b.rank) exOutW ∧
    (∀ r : Nat, (∃ e ∈ exOutW, e.rank = r) ↔
      ∃ u ∈ exStreamW, u.multipv = some r ∧ u.pv.isSome = true) ∧
    (∀ e ∈ exOutW,
      ((runStream exSan exPush exUci () exStreamW).getD (e.rank - 1) emptyAccum).score
          = none →
      ((runStream exSan exPush exUci () exStreamW).getD (e.rank - 1) emptyAccum).score_value
          = none →
        e.score = lit "N/A" ∧ e.score_value = 0) :=
  c1_aggregator_output exSan exPush exUci () true exStreamW
    (by
      intro u hu m hm
      simp only [exStreamW, List.mem_singleton] at hu
      subst hu
      injection hm with h2
      omega)
    exOutW (by decide)

/-- C5 counterexample: a rank whose PV-to-SAN conversion fails on the very
first ply (the san function raises on every move).  The claim says such a
rank is excluded ("no move means no RankedMove"); the code keeps it,
falling back to the engine-notation move for `move_san`
(src/chess_analyzer.py:268) with an empty line. -/
theorem c5_counterexample :
    buildMoves true 0 (runStream exSanFail exPush exUci ()
        [{ multipv := some 1, score := some (.cp 50), pv := some [11], depth := some 9 }])
      = some [{ rank := 1, move := lit "11", move_san := lit "11", score := lit "+0.50",
                score_value := 50, raw_score_value := 50, line := [],
                full_line := [] }] := by
  decide

/-- C5 (amended): a rank that never receives a PV is excluded from the
output entirely, even if it received a score; but a rank whose
PV-to-human-notation conversion fails on the very first ply is NOT
excluded — the entry is kept with the engine-notation move as the
`move_san` fallback and an empty human-notation line. -/
theorem c5_no_pv_dropped_san_fallback {Board Move : Type}
    (san : Board → Move → Option PyStr) (push : Board → Move → Board)
    (uci : Move → PyStr) (board : Board) (w : Bool)
    (stream : List (EngineInfo Move))
    (hwf : ∀ u ∈ stream, ∀ m, u.multipv = some m → 1 ≤ m)
    (out : List RankedMove)
    (h : buildMoves w 0 (runStream san push uci board stream) = some out) :
    (∀ r : Nat, ¬ (∃ u ∈ stream, u.multipv = some r ∧ u.pv.isSome = true) →
      ∀ e ∈ out, e.rank ≠ r) ∧
    (∀ j m l,
      ((runStream san push uci board stream).getD j emptyAccum).pv = some (m :: l) →
      ((runStream san push uci board stream).getD j emptyAccum).pv_san = some [] →
      ∃ e ∈ out, e.rank = j + 1 ∧ e.move_san = m ∧ e.full_line = []) := by
  constructor
  · intro r hno e he hr
    apply hno
    obtain ⟨j, m, l, sans, hj, hrank, hpv, -, -⟩ := buildMoves_sound w _ 0 out h e he
    have hiss : (((runStream san push uci board stream).getD j emptyAccum).pv).isSome
        = true := by rw [hpv]; rfl
    have hex := (runStream_pv_isSome san push uci board stream hwf j).mp hiss
    have hrj : r = j + 1 := by omega
    rw [hrj]
    exact hex
  · intro j m l hpv hsan
    have hlt : j < (runStream san push uci board stream).length := by
      by_contra hge
      rw [getD_of_length_le _ j (by omega)] at hpv
      simp [emptyAccum] at hpv
    have hmem := buildMoves_complete w _ 0 out h j hlt m l [] hpv hsan
    refine ⟨_, hmem, ?_, ?_, ?_⟩
    · rw [mkRankedMove_rank]; omega
    · exact mkRankedMove_move_san_nil w (0 + j) m _
    · exact mkRankedMove_full_line w (0 + j) m [] _

def exStreamC5 : List (EngineInfo Nat) :=
  [{ multipv := some 1, score := some (.cp 50), pv := some [11], depth := some 9 }]

def exOutC5 : List RankedMove :=
  [{ rank := 1, move := lit "11", move_san := lit "11", score := lit "+0.50",
     score_value := 50, raw_score_value := 50, line := [], full_line := [] }]

theorem c5_no_pv_dropped_san_fallback_witness :
    ∃ e ∈ exOutC5, e.rank = 0 + 1 ∧ e.move_san = lit "11" ∧ e.full_line = [] :=
  (c5_no_pv_dropped_san_fallback exSanFail exPush exUci () true exStreamC5
    (by
      intro u hu m hm
      simp only [exStreamC5, List.mem_singleton] at hu
      subst hu
      injection hm with h2
      omega)
    exOutC5 (by decide)).2 0 (lit "11") [] (by decide) (by decide)
